import Mathlib

/-!
Verification of the Duolingo guidebook converters
(src/duolingo_to_markdown.py and src/batch_convert_duolingo.py).

The two scripts share the same extraction pipeline: BeautifulSoup-parsed
HTML is walked and rendered to Markdown.  We embed the parsed HTML tree as
a rose tree `Node` and translate each Python function into a Lean
function over it, mirroring the BeautifulSoup primitives the code relies
on (`find`, `find_all`, `.children`, `get_text`, class filters).
-/

/-- Parsed HTML node: either a text node (NavigableString) or an element
(Tag) with a tag name, a multi-valued class attribute (already split on
whitespace, as BeautifulSoup stores it; an absent or empty class attribute
is the empty list), other attributes, and child nodes in document order. -/
inductive Node where
  | text (s : String) : Node
  | elem (tag : String) (classes : List String) (attrs : List (String × String)) (children : List Node) : Node

/-- Direct children of a node (text nodes have none), as in `tag.children`. -/
def Node.childNodes : Node → List Node
  | .text _ => []
  | .elem _ _ _ cs => cs

mutual
/-- All text-node strings below a node, in document order; the basis of
BeautifulSoup's `get_text`. -/
def Node.strings : Node → List String
  | .text s => [s]
  | .elem _ _ _ cs => stringsL cs
def stringsL : List Node → List String
  | [] => []
  | n :: ns => Node.strings n ++ stringsL ns
end

mutual
/-- All descendants of a node in document (preorder) order, excluding the
node itself, as iterated by BeautifulSoup's `find` / `find_all`. -/
def Node.descendants : Node → List Node
  | .text _ => []
  | .elem _ _ _ cs => descL cs
def descL : List Node → List Node
  | [] => []
  | n :: ns => n :: (Node.descendants n ++ descL ns)
end

/-- Python whitespace as used by `str.strip` and the regex class `\s`
(ASCII part: space, tab, newline, carriage return, vertical tab, form feed). -/
def pyIsSpace (c : Char) : Bool :=
  c == ' ' || c == '\t' || c == '\n' || c == '\r' || c == '\x0b' || c == '\x0c'

/-- Python `str.strip()`: drop leading and trailing whitespace. -/
def pyStrip (s : String) : String :=
  String.mk (((s.toList.dropWhile pyIsSpace).reverse.dropWhile pyIsSpace).reverse)

/-- Whether the first list is an initial segment of the second. -/
def startsList : List Char → List Char → Bool
  | [], _ => true
  | _ :: _, [] => false
  | a :: as, b :: bs => a == b && startsList as bs

/-- Whether string p is an initial segment of string s. -/
def strStarts (p s : String) : Bool := startsList p.toList s.toList

/-- Whether the first list occurs as a contiguous sublist of the second. -/
def listHasSub (n : List Char) : List Char → Bool
  | [] => startsList n []
  | c :: cs => startsList n (c :: cs) || listHasSub n cs

/-- Python `needle in hay` for strings (substring test). -/
def strHasSub (needle hay : String) : Bool := listHasSub needle.toList hay.toList

/-- Python `tag.get_text()`: concatenation of all descendant strings. -/
def Node.get_text (n : Node) : String := String.join n.strings

/-- Python `tag.get_text(strip=True)`: each descendant string is stripped
and the (non-empty) results are concatenated. -/
def getTextStrip (n : Node) : String := String.join (n.strings.map pyStrip)

/-- BeautifulSoup class filter `class_=f`: the class attribute is
multi-valued, so the filter matches when f equals one of the class tokens
or the whole space-joined attribute value (an absent or empty class
attribute, stored as `[]`, therefore matches the filter `""`). -/
def classMatch (f : String) (classes : List String) : Bool :=
  classes.contains f || String.intercalate " " classes == f

/-- Whether a node is an element with the given tag name that passes the
optional class filter, as tested by `find` / `find_all(name, class_=...)`. -/
def matchesFilter (tag : String) (classF : Option String) (n : Node) : Bool :=
  match n with
  | .text _ => false
  | .elem t cls _ _ =>
    t == tag && (match classF with
                 | none => true
                 | some f => classMatch f cls)

/-- BeautifulSoup `tag.find(name, class_=...)`: first matching descendant
in document order, or None. -/
def findNode (tag : String) (classF : Option String) (n : Node) : Option Node :=
  (n.descendants.filter (matchesFilter tag classF)).head?

/-- BeautifulSoup `tag.find_all(name, class_=...)`: all matching
descendants in document order. -/
def findAllNodes (tag : String) (classF : Option String) (n : Node) : List Node :=
  n.descendants.filter (matchesFilter tag classF)

/-- Python `tag.get(attr, default)` for non-class attributes. -/
def attrGet (attrs : List (String × String)) (key default : String) : String :=
  match attrs.find? (fun p => p.1 == key) with
  | some p => p.2
  | none => default

/-- Whether an element's class attribute matches the given class marker
under the BeautifulSoup class filter (text nodes never match). -/
def carriesClass (c : String) (n : Node) : Bool :=
  match n with
  | .text _ => false
  | .elem _ cls _ _ => classMatch c cls

/-- Whether a node is a div matching the empty class filter, i.e. what
`find('div', class_='')` selects. -/
def emptyClassDiv (n : Node) : Bool :=
  match n with
  | .text _ => false
  | .elem t cls _ _ => t == "div" && classMatch "" cls

/-- Punctuation scan in extract_dialog_text (duolingo_to_markdown.py lines
35-40): walk the container's direct children; at the first string child
whose stripped text is one of . ? ! , return that stripped text and stop;
otherwise contribute nothing. -/
def firstPunct : List Node → String
  | [] => ""
  | .text s :: rest =>
    let t := pyStrip s
    if t == "." || t == "?" || t == "!" || t == "," then t else firstPunct rest
  | .elem _ _ _ _ :: rest => firstPunct rest

/-- Python extract_dialog_text (duolingo_to_markdown.py lines 20-51,
identically batch_convert_duolingo.py lines 14-41): find the first
descendant div with an empty class attribute; join the texts of its
descendant spans with class "dotted" by single spaces; append the first
punctuation token found among its direct string children; read the first
descendant span with class "cAF" as the translation; return sentence plus
translation, the sentence alone, or None. -/
def extract_dialog_text (phrase_div : Node) : Option String :=
  match findNode "div" (some "") phrase_div with
  | none => none
  | some text_div =>
    let german_parts := (findAllNodes "span" (some "dotted") text_div).map Node.get_text
    let german_text := String.intercalate " " german_parts
    let german_text := german_text ++ firstPunct text_div.childNodes
    let english_text :=
      match findNode "span" (some "cAF") text_div with
      | some sp => sp.get_text
      | none => ""
    if german_text != "" && english_text != "" then
      some (german_text ++ "\n" ++ english_text)
    else if german_text != "" then
      some german_text
    else
      none

/-- Python process_dialog (duolingo_to_markdown.py lines 53-70): for every
descendant div with class "storyline", take its first descendant div with
class "phrase" and extract a dialog line from it; join the lines with
blank lines; None when no line was produced. -/
def process_dialog (dialog_div : Node) : Option String :=
  let lines := (findAllNodes "div" (some "storyline") dialog_div).filterMap
    (fun storyline =>
      match findNode "div" (some "phrase") storyline with
      | some phrase => extract_dialog_text phrase
      | none => none)
  if lines.isEmpty then none else some (String.intercalate "\n\n" lines)

/-- Caption reconstruction loop in process_tip (duolingo_to_markdown.py
lines 124-139): iterate the children of a caption text div, accumulating
raw strings and non-cAF span texts into the source-language parts, taking
a cAF span's text as the translation, and stopping at the first br. -/
def capLoop : List Node → List String → String → (List String × String)
  | [], gps, e => (gps, e)
  | .text s :: rest, gps, e => capLoop rest (gps ++ [s]) e
  | .elem t cls _ ch :: rest, gps, e =>
    if t == "span" then
      if cls.contains "cAF" then capLoop rest gps (String.join (stringsL ch))
      else capLoop rest (gps ++ [String.join (stringsL ch)]) e
    else if t == "br" then (gps, e)
    else capLoop rest gps e

/-- One step of the scan over an illustration's direct children in
process_tip (duolingo_to_markdown.py lines 102-143).  State is
(img_src, caption_german, caption_english), all initially None.  An img
child with a non-empty src not containing "yandex" overwrites img_src; a
div child with class "caption" reprocesses the captions: for each direct
div child not carrying class "playback", the caption texts are rebuilt by
capLoop and stripped (the last such candidate wins). -/
def illustStep (st : Option String × Option String × Option String) (child : Node) :
    Option String × Option String × Option String :=
  match child with
  | .text _ => st
  | .elem t cls attrs ch =>
    if t == "img" then
      if attrGet attrs "src" "" != "" && !(strHasSub "yandex" (attrGet attrs "src" "")) then
        (some (attrGet attrs "src" ""), st.2.1, st.2.2)
      else st
    else if t == "div" && cls.contains "caption" then
      let text_divs := ch.filter (matchesFilter "div" none)
      let capst := text_divs.foldl
        (fun (p : Option String × Option String) inner =>
          match inner with
          | .text _ => p
          | .elem _ icls _ ich =>
            if icls.contains "playback" then p
            else
              let r := capLoop ich [] ""
              (some (pyStrip (String.join r.1)), some (pyStrip r.2)))
        (st.2.1, st.2.2)
      (st.1, capst.1, capst.2)
    else st

/-- Truthiness of the optional caption strings: a caption takes part in
the figcaption only when it is set and non-empty (Python `if caption:`). -/
def optTruthy : Option String → Bool
  | none => false
  | some s => s != ""

/-- Figure line built by process_tip (duolingo_to_markdown.py lines
145-164) once an image source was found: the figcaption holds the
source-language caption, then the translation wrapped in br/em, with no
separator; it is omitted when both are missing or empty. -/
def figLine (src : String) (cg ce : Option String) : String :=
  let caption_parts : List String :=
    (if optTruthy cg then [cg.getD ""] else []) ++
    (if optTruthy ce then ["<br><em>" ++ ce.getD "" ++ "</em>"] else [])
  let caption_html := String.join caption_parts
  if caption_html != "" then
    "> <figure><img src=\"" ++ src ++ "\" alt=\"Illustration\"><figcaption>" ++
      caption_html ++ "</figcaption></figure>"
  else
    "> <figure><img src=\"" ++ src ++ "\" alt=\"Illustration\"></figure>"

/-- Lines contributed by one direct child of a tip in the main loop of
process_tip (duolingo_to_markdown.py lines 83-168): a paragraph whose text
is non-empty and does not strip to empty yields a quoted line plus an
empty blockquote line; an illustration div yields the figure block when an
image survived the scan; hr and everything else yield nothing. -/
def tipChildLines (element : Node) : List String :=
  match element with
  | .text _ => []
  | .elem t cls _ ch =>
    if t == "p" then
      let text := String.join (stringsL ch)
      if text != "" && pyStrip text != "" then ["> " ++ text, ">"] else []
    else if t == "div" && cls.contains "illustration" then
      let st := ch.foldl illustStep (none, none, none)
      match st.1 with
      | none => []
      | some src => [">", figLine src st.2.1 st.2.2, ">"]
    else []

/-- Assembled blockquote lines of process_tip before the trailing-pop loop
(duolingo_to_markdown.py lines 74-168): the first descendant h3's text as
a bolded line plus an empty blockquote line when present, then the lines
of each direct child in order. -/
def tipLinesPre (tip_div : Node) : List String :=
  (match findNode "h3" none tip_div with
   | some title => ["> **" ++ title.get_text ++ "**", ">"]
   | none => []) ++ tip_div.childNodes.flatMap tipChildLines

/-- Trailing-pop loop of process_tip (duolingo_to_markdown.py lines
170-172): while the list is non-empty and its last entry is the empty
blockquote line ">", pop it.  Rendered structurally: an entry is kept
exactly when something after it survives or it is itself not ">". -/
def popTrailing : List String → List String
  | [] => []
  | x :: xs =>
    match popTrailing xs with
    | [] => if x == ">" then [] else [x]
    | r => x :: r

/-- Python process_tip (duolingo_to_markdown.py lines 72-174, identically
batch_convert_duolingo.py lines 59-142): assemble the blockquote lines,
strip trailing empty blockquote lines, and join with newlines; None when
nothing is left. -/
def process_tip (tip_div : Node) : Option String :=
  let lines := popTrailing (tipLinesPre tip_div)
  if lines.isEmpty then none else some (String.intercalate "\n" lines)

/-- Characters of the literal part of the title regex. -/
def gbPat : List Char := "Guidebook:".toList

/-- One attempted match of the regex `.*Guidebook:\s*` at the current
position: `.` does not cross a newline, so the greedy `.*` reaches the
last occurrence of "Guidebook:" on the current line; the function returns
the remainder after that occurrence, or none when the line holds no
occurrence at or after this position. -/
def findLastGB : List Char → Option (List Char)
  | [] => none
  | c :: cs =>
    if c == '\n' then none
    else
      match findLastGB cs with
      | some r => some r
      | none =>
        if startsList gbPat (c :: cs) then some ((c :: cs).drop 10) else none

/-- Scan of `re.sub(r".*Guidebook:\s*", "", s)` (duolingo_to_markdown.py
line 193) with fuel: at each position, if the pattern matches, the whole
match (through the greedy trailing `\s*`, which may cross newlines) is
removed and scanning resumes after it; otherwise the character is kept.
Every step consumes at least one character, so fuel equal to the length
of the text is enough. -/
def subGBList : Nat → List Char → List Char
  | 0, _ => []
  | _, [] => []
  | fuel + 1, c :: cs =>
    match findLastGB (c :: cs) with
    | some rest => subGBList fuel (rest.dropWhile pyIsSpace)
    | none => c :: subGBList fuel cs

/-- Python `re.sub(r".*Guidebook:\s*", "", s)` applied to the title text. -/
def pySubGuidebook (s : String) : String :=
  String.mk (subGBList s.toList.length s.toList)

/-- Lines contributed by one direct child of the guide container in the
body loop of extract_content (duolingo_to_markdown.py lines 201-229,
identically batch_convert_duolingo.py lines 164-187): an h3 without the
"zero" class becomes a level-3 Markdown header and an h5 a level-5 one;
an hr without the "blue" class becomes a Markdown rule; a div with class
"dialogue" or "guide-tip" is delegated to the dialog or tip processor and
its non-None output wrapped in blank lines; all else is ignored. -/
def bodyStep (element : Node) : List String :=
  match element with
  | .text _ => []
  | .elem t cls _ _ =>
    if t == "h3" || t == "h5" then
      let text := getTextStrip element
      if t == "h3" && !(cls.contains "zero") then ["\n### " ++ text ++ "\n"]
      else if t == "h5" then ["\n##### " ++ text ++ "\n"]
      else []
    else if t == "hr" then
      if !(cls.contains "blue") then ["\n---\n"] else []
    else if t == "div" && cls.contains "dialogue" then
      match process_dialog element with
      | some dialog_text => ["\n" ++ dialog_text ++ "\n"]
      | none => []
    else if t == "div" && cls.contains "guide-tip" then
      match process_tip element with
      | some tip_text => ["\n" ++ tip_text ++ "\n"]
      | none => []
    else []

/-- Python extract_content (duolingo_to_markdown.py lines 176-231,
identically batch_convert_duolingo.py lines 144-189).  The argument doc is
the parsed document (the soup); base_url is accepted and never used, as in
the source.  Without a descendant div with class "guide" the fixed
sentinel string is returned.  Otherwise, if the guide has a descendant h3
with class "zero", its stripped text minus any "...Guidebook:" prefix
becomes the title line, prefixed with "Lesson N: " when a lesson number is
supplied; then the guide's direct children are rendered in order and
everything is joined with single newlines. -/
def extract_content (doc : Node) (base_url : String) (lesson_number : Option Nat) : String :=
  match findNode "div" (some "guide") doc with
  | none => "Error: Could not find guide content"
  | some guide =>
    let titlePart : List String :=
      match findNode "h3" (some "zero") guide with
      | none => []
      | some title_elem =>
        let title_text := pySubGuidebook (getTextStrip title_elem)
        let title_text :=
          match lesson_number with
          | some n => "Lesson " ++ toString n ++ ": " ++ title_text
          | none => title_text
        ["# " ++ title_text ++ "\n"]
    String.intercalate "\n" (titlePart ++ guide.childNodes.flatMap bodyStep)

/-- Batch fetch (batch_convert_duolingo.py lines 191-229).  The network
and the per-identifier fetch-and-extract are modelled by an oracle giving,
for each unit number, the extracted content of a 200 response or None for
any other status or exception: fetch_page_async always yields the pair of
its unit number with such an outcome.  asyncio.gather returns the results
in task-creation order, i.e. in the order of range(start, end + 1). -/
def fetch_all_pages (oracle : Nat → Option String) (start e : Nat) :
    List (Nat × Option String) :=
  (List.range' start (e + 1 - start)).map (fun i => (i, oracle i))

/-- Fetch results whose content is present, in arrival order: the
filtering comprehension of combine_and_save (batch_convert_duolingo.py
line 234). -/
def validResults (results : List (Nat × Option String)) : List (Nat × String) :=
  results.filterMap (fun p =>
    match p.2 with
    | some c => some (p.1, c)
    | none => none)

/-- Insertion of one result behind all entries with a key at most its own:
one step of a stable ascending sort by unit number. -/
def insertByKey (a : Nat × String) : List (Nat × String) → List (Nat × String)
  | [] => [a]
  | b :: bs => if b.1 ≤ a.1 then b :: insertByKey a bs else a :: b :: bs

/-- Python `valid_results.sort(key=lambda x: x[0])` (batch_convert_duolingo.py
line 235): stable ascending sort by unit number, rendered as insertion sort
processing the list left to right. -/
def sortByKey (l : List (Nat × String)) : List (Nat × String) :=
  l.foldl (fun acc a => insertByKey a acc) []

/-- Joining loop of combine_and_save (batch_convert_duolingo.py lines
242-250): each content, with the fixed separator appended between entries
but not after the last, concatenated into one string. -/
def sepJoin : List (Nat × String) → String
  | [] => ""
  | [p] => p.2
  | p :: q :: rest => p.2 ++ "\n\n---\n\n" ++ sepJoin (q :: rest)

/-- Python combine_and_save (batch_convert_duolingo.py lines 231-263),
restricted to the file content it writes: keep the results with present
content, sort them ascending by unit number, and join the contents with
the fixed separator. -/
def combine_and_save (results : List (Nat × Option String)) : String :=
  sepJoin (sortByKey (validResults results))

/-! Helper lemmas. -/

/-- The trailing-pop loop removes exactly the maximal trailing run of
entries equal to ">". -/
theorem popTrailing_eq_dropWhile_reverse (l : List String) :
    popTrailing l = ((l.reverse.dropWhile (fun s => s == ">")).reverse) := by
  induction l with
  | nil => rfl
  | cons x xs ih =>
    by_cases hnil : (xs.reverse.dropWhile (fun s => s == ">")) = []
    · have hpxs : popTrailing xs = [] := by rw [ih, hnil]; rfl
      simp only [popTrailing, hpxs, List.reverse_cons, List.dropWhile_append, hnil,
        List.isEmpty_nil, if_true]
      by_cases hx : (x == ">") = true
      · simp [hx]
      · simp [hx, List.dropWhile]
    · have hpxs : popTrailing xs ≠ [] := by
        rw [ih]
        simpa using hnil
      rw [List.reverse_cons, List.dropWhile_append]
      simp only [List.isEmpty_iff, hnil, if_false]
      rw [List.reverse_append]
      simp only [List.reverse_singleton, List.singleton_append]
      rw [← ih]
      cases hc : popTrailing xs with
      | nil => exact absurd hc hpxs
      | cons r rs => simp [popTrailing, hc]

/-- An entry other than ">" at the front survives the trailing-pop loop. -/
theorem popTrailing_cons_of_ne (x : String) (xs : List String) (hx : (x == ">") = false) :
    popTrailing (x :: xs) = x :: popTrailing xs := by
  cases hc : popTrailing xs with
  | nil => simp [popTrailing, hc, hx]
  | cons r rs => simp [popTrailing, hc]

/-- The accumulator of the intercalate loop is a prefix of its result. -/
theorem interGo_append (s : String) (t : List String) (a b : String) :
    String.intercalate.go (a ++ b) s t = a ++ String.intercalate.go b s t := by
  induction t generalizing b with
  | nil => rfl
  | cons x xs ih =>
    have h1 : String.intercalate.go (a ++ b) s (x :: xs)
        = String.intercalate.go (a ++ b ++ s ++ x) s xs := rfl
    have h2 : String.intercalate.go b s (x :: xs)
        = String.intercalate.go (b ++ s ++ x) s xs := rfl
    rw [h1, h2, show a ++ b ++ s ++ x = a ++ (b ++ s ++ x) by
      simp [String.append_assoc]]
    exact ih (b ++ s ++ x)

/-- Splitting an intercalation at its first element. -/
theorem intercalate_cons_cons (s x y : String) (t : List String) :
    String.intercalate s (x :: y :: t) = x ++ s ++ String.intercalate s (y :: t) := by
  have h1 : String.intercalate s (x :: y :: t)
      = String.intercalate.go ((x ++ s) ++ y) s t := rfl
  have h2 : String.intercalate s (y :: t) = String.intercalate.go y s t := rfl
  rw [h1, h2, interGo_append s t (x ++ s) y]

/-- The joining loop of combine_and_save computes the intercalation of the
contents with the fixed separator. -/
theorem sepJoin_eq_intercalate (l : List (Nat × String)) :
    sepJoin l = String.intercalate "\n\n---\n\n" (l.map Prod.snd) := by
  match l with
  | [] => rfl
  | [p] => rfl
  | p :: q :: rest =>
    rw [show sepJoin (p :: q :: rest) = p.2 ++ "\n\n---\n\n" ++ sepJoin (q :: rest) from rfl,
      sepJoin_eq_intercalate (q :: rest)]
    simp only [List.map_cons]
    rw [intercalate_cons_cons]

/-- An intercalation beginning with a given element extends it on the right. -/
theorem intercalate_cons_exists (s x : String) (t : List String) :
    ∃ b, String.intercalate s (x :: t) = x ++ b := by
  cases t with
  | nil => exact ⟨"", by simp [String.intercalate, String.intercalate.go]⟩
  | cons y ys => exact ⟨s ++ String.intercalate s (y :: ys), by
      rw [intercalate_cons_cons, String.append_assoc]⟩

/-- A string is an initial segment of any extension of itself. -/
theorem startsList_append (l m : List Char) : startsList l (l ++ m) = true := by
  induction l with
  | nil => rfl
  | cons c cs ih => simp [startsList, ih]

/-- strStarts holds on any right extension. -/
theorem strStarts_append (a b : String) : strStarts a (a ++ b) = true := by
  show startsList a.toList (a ++ b).toList = true
  have : (a ++ b).toList = a.toList ++ b.toList := by
    simp [String.toList, String.data_append]
  rw [this]
  exact startsList_append _ _

/-- Inserting one result is a permutation of putting it in front. -/
theorem insertByKey_perm (a : Nat × String) (l : List (Nat × String)) :
    (insertByKey a l).Perm (a :: l) := by
  induction l with
  | nil => exact List.Perm.refl _
  | cons b bs ih =>
    by_cases h : b.1 ≤ a.1
    · simp only [insertByKey, if_pos h]
      exact (ih.cons b).trans (List.Perm.swap a b bs)
    · simp only [insertByKey, if_neg h]
      exact List.Perm.refl _

/-- The insertion sort of combine_and_save permutes the filtered results. -/
theorem sortByKey_perm (l : List (Nat × String)) : (sortByKey l).Perm l := by
  have gen : ∀ (l acc : List (Nat × String)),
      (l.foldl (fun acc a => insertByKey a acc) acc).Perm (acc ++ l) := by
    intro l
    induction l with
    | nil => intro acc; simp
    | cons x xs ih =>
      intro acc
      have h1 := ih (insertByKey x acc)
      have h2 : (insertByKey x acc ++ xs).Perm (x :: (acc ++ xs)) :=
        (insertByKey_perm x acc).append_right xs
      have h3 : (x :: (acc ++ xs)).Perm (acc ++ x :: xs) := List.perm_middle.symm
      exact (h1.trans h2).trans h3
  simpa using gen l []

/-- Insertion preserves sortedness by unit number. -/
theorem insertByKey_pairwise (a : Nat × String) (l : List (Nat × String))
    (h : l.Pairwise (fun x y => x.1 ≤ y.1)) :
    (insertByKey a l).Pairwise (fun x y => x.1 ≤ y.1) := by
  induction l with
  | nil => simp [insertByKey]
  | cons b bs ih =>
    rcases List.pairwise_cons.mp h with ⟨hb, hbs⟩
    by_cases hle : b.1 ≤ a.1
    · simp only [insertByKey, if_pos hle]
      refine List.pairwise_cons.mpr ⟨?_, ih hbs⟩
      intro x hx
      have hx' : x ∈ a :: bs := (insertByKey_perm a bs).mem_iff.mp hx
      rcases List.mem_cons.mp hx' with hxa | hxbs
      · subst hxa; exact hle
      · exact hb x hxbs
    · simp only [insertByKey, if_neg hle]
      have ha : a.1 ≤ b.1 := Nat.le_of_not_le hle
      refine List.pairwise_cons.mpr ⟨?_, h⟩
      intro x hx
      rcases List.mem_cons.mp hx with hxb | hxbs
      · rw [hxb]; exact ha
      · exact Nat.le_trans ha (hb x hxbs)

/-- The insertion sort of combine_and_save yields a list that ascends by
unit number. -/
theorem sortByKey_pairwise (l : List (Nat × String)) :
    (sortByKey l).Pairwise (fun x y => x.1 ≤ y.1) := by
  have gen : ∀ (l acc : List (Nat × String)),
      acc.Pairwise (fun x y => x.1 ≤ y.1) →
      (l.foldl (fun acc a => insertByKey a acc) acc).Pairwise (fun x y => x.1 ≤ y.1) := by
    intro l
    induction l with
    | nil => intro acc hacc; simpa using hacc
    | cons x xs ih =>
      intro acc hacc
      exact ih (insertByKey x acc) (insertByKey_pairwise x acc hacc)
  exact gen l [] (by simp)

/-- Occurrence count of a number in a contiguous range. -/
theorem count_range' (n s i : Nat) :
    (List.range' s n).count i = if s ≤ i ∧ i < s + n then 1 else 0 := by
  induction n generalizing s with
  | zero =>
    simp only [List.range', List.count_nil]
    split_ifs with h
    · omega
    · rfl
  | succ m ih =>
    have hr : List.range' s (m + 1) = s :: List.range' (s + 1) m := rfl
    rw [hr, List.count_cons, ih (s + 1)]
    by_cases hsi : i = s
    · subst hsi
      simp only [beq_self_eq_true, if_true]
      split_ifs <;> omega
    · have h1 : ¬ (s == i) = true := by simpa using Ne.symm hsi
      rw [if_neg h1, Nat.add_zero]
      split_ifs <;> omega

/-- Qualifying image source of one direct child of an illustration,
following the amended reading of the image rule: an img child qualifies
exactly when its src attribute value is non-empty and does not contain
the substring "yandex". -/
def qualSrc : Node → Option String
  | .text _ => none
  | .elem t _ attrs _ =>
    if t == "img" then
      if attrGet attrs "src" "" != "" && !(strHasSub "yandex" (attrGet attrs "src" "")) then
        some (attrGet attrs "src" "")
      else none
    else none

/-- One scan step changes the image-source slot exactly to the child's
qualifying source, if any. -/
theorem illustStep_fst (st : Option String × Option String × Option String) (c : Node) :
    (illustStep st c).1 = Option.or (qualSrc c) st.1 := by
  cases c with
  | text s => rfl
  | elem t cls attrs ch =>
    simp only [illustStep, qualSrc]
    by_cases himg : (t == "img") = true
    · rw [if_pos himg, if_pos himg]
      by_cases hq : (attrGet attrs "src" "" != ""
          && !(strHasSub "yandex" (attrGet attrs "src" ""))) = true
      · rw [if_pos hq, if_pos hq]; rfl
      · rw [if_neg hq, if_neg hq]; rfl
    · rw [if_neg himg, if_neg himg]
      by_cases hcap : (t == "div" && cls.contains "caption") = true
      · rw [if_pos hcap]; rfl
      · rw [if_neg hcap]; rfl

/-- The scan over an illustration's direct children keeps the last
qualifying image source, falling back to the initial slot. -/
theorem illust_fold_fst (ch : List Node) (st : Option String × Option String × Option String) :
    (ch.foldl illustStep st).1 = Option.or ((ch.filterMap qualSrc).getLast?) st.1 := by
  induction ch generalizing st with
  | nil => rfl
  | cons c cs ih =>
    rw [List.foldl_cons, ih (illustStep st c), illustStep_fst st c]
    cases hq : qualSrc c with
    | none => simp [List.filterMap_cons, hq, Option.or]
    | some x =>
      simp only [List.filterMap_cons, hq]
      cases hcs : cs.filterMap qualSrc with
      | nil => simp [Option.or]
      | cons y ys =>
        rw [List.getLast?_cons_cons]
        cases hgl : (y :: ys).getLast? with
        | none => simp at hgl
        | some z => simp [Option.or]

/-- A filter over a list all of whose entries fail the predicate is empty. -/
theorem filter_nil_of_all_false {α : Type} (p : α → Bool) (l : List α)
    (h : ∀ a ∈ l, p a = false) : l.filter p = [] := by
  induction l with
  | nil => rfl
  | cons x xs ih =>
    have hx := h x (List.mem_cons_self x xs)
    rw [List.filter_cons, if_neg (by simp [hx])]
    exact ih (fun a ha => h a (List.mem_cons_of_mem x ha))

/-- The filter used to look the guide container up matches only elements
that carry the guide class marker. -/
theorem matchesFilter_imp_carries (c : String) (m : Node)
    (h : matchesFilter "div" (some c) m = true) : carriesClass c m = true := by
  cases m with
  | text s => exact absurd h (by simp [matchesFilter])
  | elem t cls attrs ch =>
    simp only [matchesFilter, Bool.and_eq_true] at h
    simpa [carriesClass] using h.2

/-- The filter for the plain text container agrees with emptyClassDiv. -/
theorem matchesFilter_empty_eq (m : Node) :
    matchesFilter "div" (some "") m = emptyClassDiv m := by
  cases m <;> rfl

/-! Claim theorems. -/

/-- C1: for every markup input containing no element carrying the "guide"
class marker, extract_content (with any base URL and any lesson hint)
returns the fixed sentinel error string; being a total function of the
parsed tree, it never raises. -/
theorem c1_missing_guide_returns_sentinel (doc : Node) (base_url : String)
    (lesson : Option Nat)
    (h : ∀ m ∈ doc.descendants, carriesClass "guide" m = false) :
    extract_content doc base_url lesson = "Error: Could not find guide content" := by
  have hfil : doc.descendants.filter (matchesFilter "div" (some "guide")) = [] := by
    apply filter_nil_of_all_false
    intro m hm
    cases hmf : matchesFilter "div" (some "guide") m with
    | false => rfl
    | true =>
      have hc := matchesFilter_imp_carries "guide" m hmf
      rw [h m hm] at hc
      exact Bool.noConfusion hc
  have hfind : findNode "div" (some "guide") doc = none := by
    rw [findNode, hfil]; rfl
  rw [extract_content, hfind]

/-- Markup with no guide container anywhere. -/
def docC1 : Node :=
  .elem "html" [] [] [.elem "body" ["content"] [] [.text "hi"]]

/-- Witness for C1 at a concrete guide-free document. -/
theorem c1_missing_guide_returns_sentinel_witness :
    (∀ m ∈ docC1.descendants, carriesClass "guide" m = false) ∧
    extract_content docC1 "https://example.org" (some 3)
      = "Error: Could not find guide content" :=
  ⟨by decide, c1_missing_guide_returns_sentinel docC1 "https://example.org" (some 3) (by decide)⟩

/-- C2: for every batch result set with pairwise distinct identifiers, the
written file content is exactly the present documents in strictly
ascending identifier order joined with the fixed separator between
entries, and in particular the result set [(2, "B"), (1, "A")] yields
"A\n\n---\n\nB". -/
theorem c2_combiner_sorted_join (results : List (Nat × Option String))
    (h : ((validResults results).map Prod.fst).Nodup) :
    (∃ l : List (Nat × String),
        l.Perm (validResults results) ∧
        List.Chain' (fun a b => a.1 < b.1) l ∧
        combine_and_save results = String.intercalate "\n\n---\n\n" (l.map Prod.snd)) ∧
    combine_and_save [(2, some "B"), (1, some "A")] = "A\n\n---\n\nB" := by
  constructor
  · refine ⟨sortByKey (validResults results), sortByKey_perm _, ?_, ?_⟩
    · have hperm := sortByKey_perm (validResults results)
      have hnd : ((sortByKey (validResults results)).map Prod.fst).Nodup :=
        ((hperm.map Prod.fst).nodup_iff).mpr h
      have hpw_ne : (sortByKey (validResults results)).Pairwise (fun a b => a.1 ≠ b.1) :=
        List.pairwise_map.mp hnd
      have hpw_lt : (sortByKey (validResults results)).Pairwise (fun a b => a.1 < b.1) :=
        ((sortByKey_pairwise (validResults results)).and hpw_ne).imp
          (fun hab => lt_of_le_of_ne hab.1 hab.2)
      exact hpw_lt.chain'
    · rw [combine_and_save, sepJoin_eq_intercalate]
  · rfl

/-- Witness for C2 at the concrete two-element result set. -/
theorem c2_combiner_sorted_join_witness :
    ((validResults [(2, some "B"), (1, some "A")]).map Prod.fst).Nodup ∧
    ((∃ l : List (Nat × String),
        l.Perm (validResults [(2, some "B"), (1, some "A")]) ∧
        List.Chain' (fun a b => a.1 < b.1) l ∧
        combine_and_save [(2, some "B"), (1, some "A")]
          = String.intercalate "\n\n---\n\n" (l.map Prod.snd)) ∧
      combine_and_save [(2, some "B"), (1, some "A")] = "A\n\n---\n\nB") :=
  ⟨by decide, c2_combiner_sorted_join [(2, some "B"), (1, some "A")] (by decide)⟩

/-- C3: for every requested inclusive range and every oracle outcome of
the per-page fetches, the completed batch result list holds exactly one
entry per identifier of the range: each in-range identifier occurs once
among the result identifiers and each out-of-range identifier not at all. -/
theorem c3_each_identifier_exactly_once (oracle : Nat → Option String)
    (start e i : Nat) :
    ((fetch_all_pages oracle start e).map Prod.fst).count i
      = if start ≤ i ∧ i ≤ e then 1 else 0 := by
  have hmap : (fetch_all_pages oracle start e).map Prod.fst
      = List.range' start (e + 1 - start) := by
    rw [fetch_all_pages, List.map_map]
    exact List.map_id _
  rw [hmap, count_range']
  split_ifs <;> omega

/-- Dialog phrase of C4: a playback container, then the plain container
with dotted spans "Ich" and "bin", a punctuation text node ".", and a
cAF translation span "I am". -/
def phraseC4 : Node :=
  .elem "div" ["phrase"] []
    [.elem "div" ["playback"] [] [],
     .elem "div" [] []
       [.elem "span" ["dotted"] [] [.text "Ich"],
        .elem "span" ["dotted"] [] [.text "bin"],
        .text ".",
        .elem "span" ["cAF"] [] [.text "I am"]]]

/-- Variant of the C4 phrase with a second punctuation text node after the
first: only the first match is appended. -/
def phraseC4b : Node :=
  .elem "div" ["phrase"] []
    [.elem "div" ["playback"] [] [],
     .elem "div" [] []
       [.elem "span" ["dotted"] [] [.text "Ich"],
        .elem "span" ["dotted"] [] [.text "bin"],
        .text ".",
        .text "?",
        .elem "span" ["cAF"] [] [.text "I am"]]]

/-- C4: on a phrase whose plain container holds dotted spans "Ich" and
"bin", a direct text-node "." child and a cAF span "I am",
extract_dialog_text returns the two lines "Ich bin.\nI am"; the dotted
texts are joined by single spaces, the first matching punctuation token is
appended without a space and further matches are ignored, and the
translation follows on the second line. -/
theorem c4_dialog_reconstruction :
    extract_dialog_text phraseC4 = some "Ich bin.\nI am" ∧
    extract_dialog_text phraseC4b = some "Ich bin.\nI am" :=
  ⟨rfl, rfl⟩

/-- Tip of C5: a title h3 and one paragraph, no illustration. -/
def tipC5 : Node :=
  .elem "div" ["guide-tip"] []
    [.elem "h3" [] [] [.text "Good to know"],
     .elem "p" [] [] [.text "Hello"]]

/-- C5: on a tip with title "Good to know", one paragraph "Hello" and no
illustration, process_tip returns exactly the three blockquote lines
without a trailing empty one; and in general the final loop of
process_tip strips exactly the maximal trailing run of empty blockquote
lines from the assembled output. -/
theorem c5_tip_blockquote_and_trailing_strip :
    process_tip tipC5 = some "> **Good to know**\n>\n> Hello" ∧
    ∀ l : List String,
      popTrailing l = ((l.reverse.dropWhile (fun s => s == ">")).reverse) :=
  ⟨rfl, popTrailing_eq_dropWhile_reverse⟩

/-- Tip with an h5 header only: the title lookup of process_tip searches
for h3 alone, so no bolded title line is produced. -/
def tipC6a : Node :=
  .elem "div" ["guide-tip"] []
    [.elem "h5" [] [] [.text "Title"],
     .elem "p" [] [] [.text "Hello"]]

/-- Tip with an h3 header and nothing else: the empty blockquote line
after the bolded title is removed by the trailing strip. -/
def tipC6b : Node :=
  .elem "div" ["guide-tip"] [] [.elem "h3" [] [] [.text "T"]]

/-- Refutation of C6 as stated.  First, a header of a level other than 3:
tipC6a holds an h5 header "Title" among its children, yet process_tip
emits no bolded title line at all (the output is exactly "> Hello").
Second, the promised empty blockquote line after the title is not always
present: on tipC6b, which holds only an h3 header, the output is the
single bolded line with nothing after it. -/
theorem c6_any_level_header_counterexample :
    process_tip tipC6a = some "> Hello" ∧
    strStarts "> **Title**" "> Hello" = false ∧
    process_tip tipC6b = some "> **T**" ∧
    strStarts ("> **T**" ++ "\n" ++ ">") "> **T**" = false :=
  ⟨rfl, rfl, rfl, rfl⟩

/-- C6 amended: if a level-3 header is present anywhere among the tip's
descendants, the first such header's text opens the assembled blockquote
as a bolded first line followed by an empty blockquote line, emitted once
and first regardless of the header's position; the returned text always
starts with that bolded line (the following empty line may fall to the
trailing strip when nothing follows it). -/
theorem c6_h3_title_first_line (tip : Node) (t : Node)
    (h : findNode "h3" none tip = some t) :
    (∃ rest, tipLinesPre tip
        = ("> **" ++ t.get_text ++ "**") :: ">" :: rest) ∧
    (∃ s, process_tip tip = some s ∧
        strStarts ("> **" ++ t.get_text ++ "**") s = true) := by
  have h1 : tipLinesPre tip
      = ("> **" ++ t.get_text ++ "**") :: ">" :: tip.childNodes.flatMap tipChildLines := by
    rw [tipLinesPre, h]
    rfl
  refine ⟨⟨_, h1⟩, ?_⟩
  have l1 : ("> **" : String).length = 4 := by decide
  have l2 : ("**" : String).length = 2 := by decide
  have l3 : ((">") : String).length = 1 := by decide
  have hne' : ("> **" ++ t.get_text ++ "**") ≠ ">" := by
    intro heq
    have hlen := congrArg String.length heq
    rw [String.length_append, String.length_append, l1, l2, l3] at hlen
    omega
  have hne : (("> **" ++ t.get_text ++ "**") == ">") = false := by
    simpa using hne'
  have h2 := popTrailing_cons_of_ne ("> **" ++ t.get_text ++ "**")
    (">" :: tip.childNodes.flatMap tipChildLines) hne
  have hpt : process_tip tip
      = some (String.intercalate "\n" (("> **" ++ t.get_text ++ "**")
          :: popTrailing (">" :: tip.childNodes.flatMap tipChildLines))) := by
    simp only [process_tip, h1, h2]
    rfl
  obtain ⟨b, hb⟩ := intercalate_cons_exists "\n" ("> **" ++ t.get_text ++ "**")
    (popTrailing (">" :: tip.childNodes.flatMap tipChildLines))
  exact ⟨_, hpt, by rw [hb]; exact strStarts_append _ _⟩

/-- Witness for the amended C6 at the title-only tip. -/
theorem c6_h3_title_first_line_witness :
    findNode "h3" none tipC6b = some (Node.elem "h3" [] [] [Node.text "T"]) ∧
    ((∃ rest, tipLinesPre tipC6b
        = ("> **" ++ (Node.elem "h3" [] [] [Node.text "T"]).get_text ++ "**") :: ">" :: rest) ∧
     (∃ s, process_tip tipC6b = some s ∧
        strStarts ("> **" ++ (Node.elem "h3" [] [] [Node.text "T"]).get_text ++ "**") s = true)) :=
  ⟨rfl, c6_h3_title_first_line tipC6b (Node.elem "h3" [] [] [Node.text "T"]) rfl⟩

/-- Document whose guide holds a single h5 header carrying the "zero"
marker class. -/
def docC7 : Node :=
  .elem "html" [] []
    [.elem "div" ["guide"] [] [.elem "h5" ["zero"] [] [.text "T"]]]

/-- Refutation of C7 as stated: the "zero"-marker exception does not apply
to level-5 headers.  In docC7 the only header is an h5 carrying the zero
class; the claim says such a header is treated purely as the title and is
not repeated in the body, yet extract_content emits it in the body as a
level-5 Markdown header (and, the title lookup being restricted to h3, no
title line at all). -/
theorem c7_zero_h5_counterexample :
    extract_content docC7 "" none = "\n##### T\n" ∧
    bodyStep (Node.elem "h5" ["zero"] [] [Node.text "T"]) = ["\n##### T\n"] :=
  ⟨rfl, rfl⟩

/-- C7 amended: in the body traversal, a direct-child h3 without the
"zero" marker class emits a level-3 Markdown header line, an h3 with it
emits nothing (it is the title), and a direct-child h5 emits a level-5
Markdown header line regardless of its classes. -/
theorem c7_header_mapping (cls : List String) (attrs : List (String × String))
    (ch : List Node) :
    (cls.contains "zero" = false →
      bodyStep (Node.elem "h3" cls attrs ch)
        = ["\n### " ++ getTextStrip (Node.elem "h3" cls attrs ch) ++ "\n"]) ∧
    (cls.contains "zero" = true →
      bodyStep (Node.elem "h3" cls attrs ch) = []) ∧
    bodyStep (Node.elem "h5" cls attrs ch)
      = ["\n##### " ++ getTextStrip (Node.elem "h5" cls attrs ch) ++ "\n"] := by
  refine ⟨?_, ?_, ?_⟩
  · intro h
    have h' : "zero" ∉ cls := by simpa using h
    simp [bodyStep, h']
  · intro h
    have h' : "zero" ∈ cls := by simpa using h
    simp [bodyStep, h']
  · simp [bodyStep]

/-- Witness for the amended C7 at a concrete plain h3 header. -/
theorem c7_header_mapping_witness :
    ([] : List String).contains "zero" = false ∧
    bodyStep (Node.elem "h3" [] [] [Node.text "Hi"]) = ["\n### Hi\n"] :=
  ⟨rfl, by rw [(c7_header_mapping [] [] [Node.text "Hi"]).1 rfl]; rfl⟩

/-- Tip of C8: an illustration whose first img has a usable source and
whose last img has an empty src attribute value. -/
def tipC8 : Node :=
  .elem "div" ["guide-tip"] []
    [.elem "div" ["illustration"] []
      [.elem "img" [] [("src", "http://a.png")] [],
       .elem "img" [] [("src", "")] []]]

/-- Refutation of C8 as stated: the code also requires the src to be
non-empty.  In tipC8 the last direct img child's src is "", which does not
contain "yandex", so the claim designates "" as the source to use; the
code skips the empty src and emits the figure with the earlier source
"http://a.png" instead. -/
theorem c8_empty_src_counterexample :
    process_tip tipC8
      = some (">\n> <figure><img src=\"http://a.png\" alt=\"Illustration\"></figure>") ∧
    strHasSub "yandex" "" = false ∧
    strHasSub "http://a.png"
      (">\n> <figure><img src=\"http://a.png\" alt=\"Illustration\"></figure>") = true :=
  ⟨rfl, rfl, rfl⟩

/-- C8 amended: for every illustration element, the image source used is
the last direct img child whose src is non-empty and does not contain the
substring "yandex"; when no img child has such a source, no figure lines
are emitted for that illustration. -/
theorem c8_last_usable_img_src (ch : List Node) :
    (ch.foldl illustStep (none, none, none)).1 = (ch.filterMap qualSrc).getLast? ∧
    (ch.filterMap qualSrc = [] →
      tipChildLines (Node.elem "div" ["illustration"] [] ch) = []) := by
  constructor
  · rw [illust_fold_fst]
    cases (ch.filterMap qualSrc).getLast? <;> rfl
  · intro hq
    have h1 : (ch.foldl illustStep (none, none, none)).1 = none := by
      rw [illust_fold_fst, hq]
      rfl
    simp [tipChildLines, h1]

/-- Witness for the amended C8 at the empty illustration. -/
theorem c8_last_usable_img_src_witness :
    ([] : List Node).filterMap qualSrc = [] ∧
    tipChildLines (Node.elem "div" ["illustration"] [] []) = [] :=
  ⟨rfl, (c8_last_usable_img_src []).2 rfl⟩

/-- Phrase of C9: its only direct child carries a class, and the plain
(empty-class) div sits one level deeper. -/
def phraseC9 : Node :=
  .elem "div" ["phrase"] []
    [.elem "div" ["w"] []
      [.elem "div" [] [] [.elem "span" ["dotted"] [] [.text "Hi"]]]]

/-- Refutation of C9 as stated: the plain-container lookup searches all
descendants, not the direct children.  In phraseC9 no direct child has an
empty class attribute, so the claim requires extract_dialog_text to
return absent; the code finds the nested empty-class div and returns the
line "Hi". -/
theorem c9_child_only_counterexample :
    phraseC9.childNodes.all (fun c => !(emptyClassDiv c)) = true ∧
    extract_dialog_text phraseC9 = some "Hi" :=
  ⟨rfl, rfl⟩

/-- C9 amended: extract_dialog_text takes the phrase's first descendant
div (document order) with an empty class attribute as the plain text
container; when no descendant div has an empty class attribute, it
produces no dialog line. -/
theorem c9_no_plain_container_absent (phrase : Node)
    (h : ∀ m ∈ phrase.descendants, emptyClassDiv m = false) :
    extract_dialog_text phrase = none := by
  have hfil : phrase.descendants.filter (matchesFilter "div" (some "")) = [] := by
    apply filter_nil_of_all_false
    intro m hm
    rw [matchesFilter_empty_eq]
    exact h m hm
  rw [extract_dialog_text, findNode, hfil]
  rfl

/-- Phrase with a playback container only, no empty-class div anywhere. -/
def phraseC9w : Node :=
  .elem "div" ["phrase"] [] [.elem "div" ["playback"] [] []]

/-- Witness for the amended C9 at a phrase with no plain container. -/
theorem c9_no_plain_container_absent_witness :
    (∀ m ∈ phraseC9w.descendants, emptyClassDiv m = false) ∧
    extract_dialog_text phraseC9w = none :=
  ⟨by decide, c9_no_plain_container_absent phraseC9w (by decide)⟩

/-- Guide with no zero-marked h3: a lone h5 body header. -/
def guideC10 : Node :=
  .elem "div" ["guide"] [] [.elem "h5" [] [] [.text "B"]]

/-- Document wrapping guideC10. -/
def docC10 : Node :=
  .elem "html" [] [] [guideC10]

/-- C10: when the guide container holds no level-3 header carrying the
"zero" marker class, extract_content emits no title line at all — the
output is exactly the joined body fragments — and the supplied lesson
number hint has no effect on the output. -/
theorem c10_no_zero_title_no_title_line (doc g : Node) (base_url : String) (n : Nat)
    (hg : findNode "div" (some "guide") doc = some g)
    (hz : findNode "h3" (some "zero") g = none) :
    extract_content doc base_url (some n)
      = String.intercalate "\n" (g.childNodes.flatMap bodyStep) ∧
    extract_content doc base_url (some n) = extract_content doc base_url none := by
  constructor
  · rw [extract_content, hg]
    simp [hz]
  · rw [extract_content, hg, extract_content, hg]
    simp [hz]

/-- Witness for C10 at a concrete guide without a zero-marked h3. -/
theorem c10_no_zero_title_no_title_line_witness :
    findNode "div" (some "guide") docC10 = some guideC10 ∧
    findNode "h3" (some "zero") guideC10 = none ∧
    (extract_content docC10 "u" (some 7)
        = String.intercalate "\n" (guideC10.childNodes.flatMap bodyStep) ∧
     extract_content docC10 "u" (some 7) = extract_content docC10 "u" none) :=
  ⟨rfl, rfl, c10_no_zero_title_no_title_line docC10 guideC10 "u" 7 rfl rfl⟩
